import Mathlib

/-!
Verification of the `ip` command-line parser/dispatcher (`cmds/ip`) and the
interactive tftp client helpers (`pkg/tftp`) from the u-root repository.

The Go sources are shallowly embedded: global mutable parser state (cursor,
`whatIWant`) is passed explicitly, Go panics and `recover` become an explicit
outcome type handled by a boundary function, and the external collaborators
(netlink, the tftp client, the filesystem) are abstracted as records of
`Except`-valued operations.
-/

/-- Go's strings.HasPrefix: `isPrefixStr p s` is true when `p` is a prefix of
`s`, by exact character-by-character comparison. -/
def isPrefixStr (p s : String) : Bool :=
  decide (p.toList <+: s.toList)

/-- Go's strings.Contains: `pat` occurs as a contiguous substring of `s`. -/
def strContains (s pat : String) : Bool :=
  decide (pat.toList <:+: s.toList)

namespace Ip

/-- The address family selector: `netlink.FAMILY_ALL` / `FAMILY_V4` / `FAMILY_V6`. -/
inductive Family where
  | all
  | v4
  | v6
deriving DecidableEq, Repr

/-- Resolution of the `-4` / `-6` flags at the top of `run`:
`family = FAMILY_ALL; if inet6 { family = FAMILY_V6 } else if inet4 { family = FAMILY_V4 }`. -/
def resolveFamily (inet4 inet6 : Bool) : Family :=
  if inet6 then .v6 else if inet4 then .v4 else .all

/-- The top-level `whatIWant` set installed by `run`. -/
def topLevelKeywords : List String :=
  ["address", "route", "link", "monitor", "neigh", "tunnel", "tcp_metrics",
   "tcpmetrics", "xfrm"]

/-- The sole element of a one-element candidate list, and nothing otherwise. -/
def uniqueCandidate : List String → Option String
  | [c] => some c
  | _ => none

/-- Modelled from the spec: `findPrefix` is called by `run` but its definition is
not among the sources; spec §4.2 gives its rules, evaluated in order:
(1) an exact match always wins; (2) otherwise a non-empty token that is a
prefix of exactly one candidate resolves to that candidate; (3) a token that
is a prefix of two or more candidates, or of none, yields no match
(`none` here, the empty string in Go). Matching is exact string comparison. -/
def findPrefix (token : String) (candidates : List String) : Option String :=
  if token ∈ candidates then
    some token
  else if token ≠ "" then
    uniqueCandidate (candidates.filter (fun c => isPrefixStr token c))
  else
    none

/-- The subcommand routines `run` can dispatch to (the cases of its `switch`). -/
inductive Subcmd where
  | address
  | link
  | route
  | neigh
  | monitor
  | tunnel
  | tcpMetrics
  | xfrm
deriving DecidableEq, Repr

/-- The `switch c` in `run`: which subcommand routine each matched keyword is
bound to (`none` is the `default:` branch, which calls `usage`). -/
def subcmdOfKeyword : String → Option Subcmd
  | "address" => some .address
  | "link" => some .link
  | "route" => some .route
  | "neigh" => some .neigh
  | "monitor" => some .monitor
  | "tunnel" => some .tunnel
  | "tcpmetrics" => some .tcpMetrics
  | "tcp_metrics" => some .tcpMetrics
  | "xfrm" => some .xfrm
  | _ => none

/-- Top-level dispatch: `c := findPrefix(arg[cursor], whatIWant)` followed by the
`switch c`. -/
def dispatchSubcmd (tok : String) : Option Subcmd :=
  match findPrefix tok topLevelKeywords with
  | some c => subcmdOfKeyword c
  | none => none

/-- The message of the Go runtime error raised by an out-of-bounds index
`arg[i]` on a slice of length `n`. -/
def oobMsg (i n : Nat) : String :=
  "runtime error: index out of range [" ++ toString i ++ "] with length " ++
    toString n

/-- The message of the Go runtime error raised by an out-of-bounds slice
expression such as `arg[cursor:]`. -/
def sliceOobMsg (i n : Nat) : String :=
  "runtime error: slice bounds out of range [" ++ toString i ++ ":] with length " ++
    toString n

/-- A Go panic value, as inspected by the type switch in `run`'s deferred
`recover` block: either an `error` (with its message) or any other value
(with its printed form). -/
inductive PanicVal where
  | errVal (msg : String)
  | nonError (desc : String)
deriving DecidableEq, Repr

/-- The data printed by the out-of-bounds diagnostic
`log.Fatalf("ip: args: %v, I got to arg %v, expected %v after that", arg, cursor, whatIWant)`. -/
structure FatalDiag where
  args : List String
  cursor : Nat
  expected : List String
deriving DecidableEq, Repr

/-- The tokens already consumed when the diagnostic was produced: the prefix of
`args` before `cursor`. -/
def FatalDiag.consumed (d : FatalDiag) : List String :=
  d.args.take d.cursor

/-- The tokens left unconsumed when the diagnostic was produced: the suffix of
`args` from `cursor`. -/
def FatalDiag.unconsumed (d : FatalDiag) : List String :=
  d.args.drop d.cursor

/-- The observable outcome of one `run` invocation: a normal return (`nil` or an
error value), or a `log.Fatalf` termination (with either the structured
out-of-bounds diagnostic or a plain fatal message). -/
inductive RunResult where
  | ok
  | err (msg : String)
  | fatalDiag (d : FatalDiag)
  | fatalMsg (msg : String)
deriving DecidableEq, Repr

/-- A `log.Fatalf` outcome (the recover boundary fired). -/
def RunResult.isFatal : RunResult → Bool
  | .fatalDiag _ => true
  | .fatalMsg _ => true
  | _ => false

/-- The type switch in `run`'s deferred `recover` block, applied to a recovered
panic value: index/slice out-of-range runtime errors become the structured
diagnostic built from `arg`, `cursor` and `whatIWant` as they stand at the
failure; any other error panic is reported as `ip: <its message>`; a non-error
panic value is reported as unexpected. -/
def recoverBoundary (args : List String) (cursor : Nat) (wiw : List String) :
    PanicVal → RunResult
  | .errVal msg =>
    if strContains msg "index out of range" then
      .fatalDiag ⟨args, cursor, wiw⟩
    else if strContains msg "slice bounds out of range" then
      .fatalDiag ⟨args, cursor, wiw⟩
    else
      .fatalMsg ("ip: " ++ msg)
  | .nonError desc => .fatalMsg ("ip: unexpected panic value: " ++ desc)

/-- How a subcommand routine terminates, as observed by `run`: a normal return
carrying its error value (`none` = `nil`), or a panic, together with the values
the globals `cursor` and `whatIWant` hold at that moment. -/
inductive ProdOutcome where
  | ret (err? : Option String)
  | panicked (v : PanicVal) (cursorAt : Nat) (wiwAt : List String)

/-- Go `%v` rendering of a `[]string`. -/
def goFmtList (l : List String) : String :=
  "[" ++ String.intercalate " " l ++ "]"

/-- The four values interpolated by `usage()`:
`arg[0:cursor]`, `arg[cursor:]`, `arg[cursor]` and `whatIWant`. -/
structure UsageDiag where
  fine : List String
  left : List String
  notUnderstood : String
  options : List String
deriving DecidableEq, Repr

/-- The diagnostic `usage()` builds from the parser state:
`arg[0:cursor]`, `arg[cursor:]`, `arg[cursor]`, `whatIWant`. -/
def usageDiag (args : List String) (cursor : Nat) (wiw : List String) : UsageDiag :=
  { fine := args.take cursor
    left := args.drop cursor
    notUnderstood := args.getD cursor ""
    options := wiw }

/-- The error text `usage()` formats from its diagnostic. -/
def usageText (d : UsageDiag) : String :=
  "this was fine: '" ++ goFmtList d.fine ++ "', and this was left, '" ++
    goFmtList d.left ++ "', and this was not understood, '" ++ d.notUnderstood ++
    "'; only options are '" ++ goFmtList d.options ++ "'"

/-- The tail of `run`: a returned error is wrapped as
`fmt.Errorf("%v: %v", c, err)`; a panic goes to the recover boundary. -/
def handleOutcome (args : List String) (c : String) : ProdOutcome → RunResult
  | .ret none => .ok
  | .ret (some e) => .err (c ++ ": " ++ e)
  | .panicked v cur wiw => recoverBoundary args cur wiw v

/-- Model of run(out): resolve the family from the flags, install the top-level
`whatIWant`, reset the cursor, read `arg[cursor]` (an out-of-bounds read
panics and is recovered), resolve it with `findPrefix`, and dispatch on the
result; the subcommand routines themselves are abstracted as `prod`. -/
def runModel (inet4 inet6 : Bool) (args : List String)
    (prod : Subcmd → Family → ProdOutcome) : RunResult :=
  let fam := resolveFamily inet4 inet6
  match args.get? 0 with
  | none =>
    recoverBoundary args 0 topLevelKeywords (.errVal (oobMsg 0 args.length))
  | some tok =>
    match findPrefix tok topLevelKeywords with
    | none =>
      handleOutcome args ""
        (.ret (some (usageText (usageDiag args 0 topLevelKeywords))))
    | some c =>
      match subcmdOfKeyword c with
      | some s => handleOutcome args c (prod s fam)
      | none =>
        handleOutcome args c
          (.ret (some (usageText (usageDiag args 0 topLevelKeywords))))

/-- Modelled from the spec: the sub-keywords of the `address` production
(spec §4.3: "Address expects {add, delete, show, flush, …}"); the routine
itself is not among the sources. -/
inductive AddrAction where
  | add
  | delete
  | show
  | flush
deriving DecidableEq, Repr

/-- The fully spelled keyword of an `address` sub-action. -/
def actionKeyword : AddrAction → String
  | .add => "add"
  | .delete => "delete"
  | .show => "show"
  | .flush => "flush"

/-- The candidate set the `address` production installs as `whatIWant`. -/
def addressKeywords : List String :=
  ["add", "delete", "show", "flush"]

/-- A parsed command: the tagged variant over the subcommands, each holding its
address family, the `address` exemplar additionally holding its sub-action;
remaining tokens are leaf values passed through to the execution collaborator
(spec §3, §4.3). -/
inductive Command where
  | address (fam : Family) (act : AddrAction) (leaves : List String)
  | link (fam : Family) (leaves : List String)
  | route (fam : Family) (leaves : List String)
  | neigh (fam : Family) (leaves : List String)
  | monitor (fam : Family) (leaves : List String)
  | tunnel (fam : Family) (leaves : List String)
  | tcpMetrics (fam : Family) (leaves : List String)
  | xfrm (fam : Family) (leaves : List String)
deriving DecidableEq, Repr

/-- The family a command targets. -/
def Command.family : Command → Family
  | .address fam _ _ => fam
  | .link fam _ => fam
  | .route fam _ => fam
  | .neigh fam _ => fam
  | .monitor fam _ => fam
  | .tunnel fam _ => fam
  | .tcpMetrics fam _ => fam
  | .xfrm fam _ => fam

/-- Modelled from the spec: the `address` production (absent from the sources),
following §4.3: with the stream exhausted it defaults to the zero-argument
"show all" form; otherwise it resolves the next token against its keyword set
with `findPrefix` and takes the remaining tokens as leaf values. -/
def parseAddress (fam : Family) (rest : List String) : Option Command :=
  match rest with
  | [] => some (.address fam .show [])
  | t :: rest' =>
    match findPrefix t addressKeywords with
    | some "add" => some (.address fam .add rest')
    | some "delete" => some (.address fam .delete rest')
    | some "show" => some (.address fam .show rest')
    | some "flush" => some (.address fam .flush rest')
    | _ => none

/-- Parsing a whole token list into a `Command`: the top-level dispatch is the
one of `run` (`findPrefix` against `whatIWant`, then the `switch`); the
productions below it are absent from the sources and are modelled from the
spec, the `address` exemplar in full and the others by the shared
tag-plus-leaf-values pattern (spec §2, §4.3). -/
def parseCommand (fam : Family) (args : List String) : Option Command :=
  match args with
  | [] => none
  | t :: rest =>
    match findPrefix t topLevelKeywords with
    | none => none
    | some c =>
      match subcmdOfKeyword c with
      | some .address => parseAddress fam rest
      | some .link => some (.link fam rest)
      | some .route => some (.route fam rest)
      | some .neigh => some (.neigh fam rest)
      | some .monitor => some (.monitor fam rest)
      | some .tunnel => some (.tunnel fam rest)
      | some .tcpMetrics => some (.tcpMetrics fam rest)
      | some .xfrm => some (.xfrm fam rest)
      | none => none

/-- Modelled from the spec: re-serialization of a parsed command into its fully
spelled, non-abbreviated token form (spec §8, canonicalization round-trip);
no serializer exists in the sources. -/
def serializeCommand : Command → List String
  | .address _ act leaves => "address" :: actionKeyword act :: leaves
  | .link _ leaves => "link" :: leaves
  | .route _ leaves => "route" :: leaves
  | .neigh _ leaves => "neigh" :: leaves
  | .monitor _ leaves => "monitor" :: leaves
  | .tunnel _ leaves => "tunnel" :: leaves
  | .tcpMetrics _ leaves => "tcp_metrics" :: leaves
  | .xfrm _ leaves => "xfrm" :: leaves

end Ip

namespace Tftp

/-- The transfer modes of `pack.ag/tftp` that `validateMode` can produce:
`tftp.ModeNetASCII` and `tftp.ModeOctet`. -/
inductive TransferMode where
  | netASCII
  | octet
deriving DecidableEq, Repr

/-- The sentinel ErrInvalidTransferMode = errors.New("invalid transfer mode"). -/
def errInvalidTransferMode : String := "invalid transfer mode"

/-- Model of validateMode: the `switch tftp.TransferMode(mode)` with cases `"ascii"`,
`"binary"` and a default returning `ErrInvalidTransferMode`. -/
def validateMode (mode : String) : Except String TransferMode :=
  if mode = "ascii" then .ok .netASCII
  else if mode = "binary" then .ok .octet
  else .error errInvalidTransferMode

/-- Model of constructURL(host, port, dir, file). -/
def constructURL (host port dir file : String) : String :=
  "tftp://" ++ host ++ ":" ++ port ++ "/" ++
    (if dir ≠ "" then dir ++ "/" else "") ++ file

/-- The response of `client.Get`, abstracted: the results its `Size()` and
`Read(data)` calls produce. -/
structure RespT where
  size : Except String Nat
  read : Except String Nat

/-- An opened local file, abstracted: the result its `Write(data)` call
produces. -/
structure FileT where
  write : Except String Nat

/-- The collaborators of `executeGet`: the tftp client's `Get` and the
filesystem's `os.OpenFile`, abstracted as functions of the url / file name. -/
structure TftpEnv where
  clientGet : String → Except String RespT
  openFile : String → Except String FileT

/-- The GetCmd structure. -/
structure GetCmd where
  remotefiles : List String
  localfile : String
deriving DecidableEq, Repr

/-- The `switch len(files)` at the head of `executeGet`: one file is a remote
file; two are remote plus local destination; otherwise all are remote files. -/
def getCmdOf (files : List String) : GetCmd :=
  match files with
  | [f] => ⟨[f], ""⟩
  | [f, l] => ⟨[f], l⟩
  | _ => ⟨files, ""⟩

/-- The sentinel errSizeNoMatch = errors.New("data size of read and write mismatch"). -/
def errSizeNoMatch : String := "data size of read and write mismatch"

/-- The loop of `executeGet` over `ret.remotefiles`, returning its result
together with the list of files actually written. Each iteration: `client.Get`
(error returned), `os.OpenFile(file, ...)` (error discarded, `nil` returned),
the conditional reopen of `ret.localfile` (error returned), `resp.Size()`,
`resp.Read`, `localfile.Write` (errors returned), and the read/write size
comparison. -/
def executeGetLoop (env : TftpEnv) (host port localfile : String)
    (nRemote : Nat) : List String → Except String Unit × List String
  | [] => (.ok (), [])
  | file :: rest =>
    match env.clientGet (constructURL host port "" file) with
    | .error e => (.error e, [])
    | .ok resp =>
      match env.openFile file with
      | .error _ => (.ok (), [])
      | .ok lf =>
        match (if localfile ≠ "" ∧ nRemote = 1 then env.openFile localfile
               else .ok lf) with
        | .error e => (.error e, [])
        | .ok lf' =>
          match resp.size with
          | .error e => (.error e, [])
          | .ok _ =>
            match resp.read with
            | .error e => (.error e, [])
            | .ok nR =>
              match lf'.write with
              | .error e => (.error e, [])
              | .ok nW =>
                if nR ≠ nW then (.error errSizeNoMatch, [])
                else
                  match executeGetLoop env host port localfile nRemote rest with
                  | (r, log) => (r, file :: log)

/-- Model of executeGet(client, host, port, files), with the written-files log made
explicit. -/
def executeGet (env : TftpEnv) (host port : String) (files : List String) :
    Except String Unit × List String :=
  let ret := getCmdOf files
  executeGetLoop env host port ret.localfile ret.remotefiles.length ret.remotefiles

end Tftp


/-! Helper lemmas shared by the claim theorems. -/

namespace Ip

/-- Appending strings appends their character lists. -/
theorem toList_append (s t : String) : (s ++ t).toList = s.toList ++ t.toList := by
  cases s
  cases t
  rfl

/-- A one-element list is its own unique candidate. -/
theorem uniqueCandidate_singleton (c : String) : uniqueCandidate [c] = some c := rfl

/-- A list whose length is not one has no unique candidate. -/
theorem uniqueCandidate_of_length_ne_one (l : List String) (h : l.length ≠ 1) :
    uniqueCandidate l = none := by
  match l with
  | [] => rfl
  | [c] => exact absurd rfl h
  | a :: b :: t => rfl

/-- Every Go index-out-of-range runtime message contains the pattern the
recover block looks for. -/
theorem strContains_oobMsg (i n : Nat) :
    strContains (oobMsg i n) "index out of range" = true := by
  have h1 : ("runtime error: index out of range [").toList =
      "runtime error: ".toList ++ ("index out of range".toList ++ " [".toList) := by
    decide
  unfold strContains oobMsg
  rw [decide_eq_true_iff, toList_append, toList_append, toList_append, h1]
  exact ⟨"runtime error: ".toList,
    " [".toList ++ (toString i).toList ++ "] with length ".toList ++ (toString n).toList,
    by simp⟩

/-- Every Go slice-bounds runtime message contains the pattern the recover
block looks for. -/
theorem strContains_sliceOobMsg (i n : Nat) :
    strContains (sliceOobMsg i n) "slice bounds out of range" = true := by
  have h1 : ("runtime error: slice bounds out of range [").toList =
      "runtime error: ".toList ++ ("slice bounds out of range".toList ++ " [".toList) := by
    decide
  unfold strContains sliceOobMsg
  rw [decide_eq_true_iff, toList_append, toList_append, toList_append, h1]
  exact ⟨"runtime error: ".toList,
    " [".toList ++ (toString i).toList ++ ":] with length ".toList ++ (toString n).toList,
    by simp⟩

/-- C1: for every token and candidate set, the rules of findPrefix apply in
order: an exact match always wins even when the token is also a prefix of
another candidate; otherwise a token that is a non-empty prefix of exactly one
candidate resolves to that candidate; a token that is empty or a prefix of two
or more candidates or of none yields no match, never a silent arbitrary
selection. Matching is exact character-wise comparison (isPrefixStr). -/
theorem findPrefix_resolution_rules (token : String) (candidates : List String) :
    (token ∈ candidates → findPrefix token candidates = some token) ∧
    (token ∉ candidates → token ≠ "" →
      ∀ c : String, candidates.filter (fun k => isPrefixStr token k) = [c] →
        findPrefix token candidates = some c) ∧
    (token ∉ candidates →
      (token = "" ∨ (candidates.filter (fun k => isPrefixStr token k)).length ≠ 1) →
      findPrefix token candidates = none) := by
  refine ⟨?_, ?_, ?_⟩
  · intro h
    simp [findPrefix, h]
  · intro h hne c hf
    simp [findPrefix, h, hne, hf, uniqueCandidate_singleton]
  · intro h hd
    rcases hd with rfl | hlen
    · simp [findPrefix, h]
    · by_cases hne : token = ""
      · subst hne
        simp [findPrefix, h]
      · simp [findPrefix, h, hne,
          uniqueCandidate_of_length_ne_one _ hlen]

/-- C1 witness: exact match wins ("address" is in the set), a unique non-empty
prefix resolves ("addr"), and an ambiguous token ("tcp", a prefix of both
tcp_metrics and tcpmetrics) yields no match. -/
theorem findPrefix_resolution_rules_witness :
    (("address" : String) ∈ topLevelKeywords ∧
      findPrefix "address" topLevelKeywords = some "address") ∧
    (("addr" : String) ∉ topLevelKeywords ∧
      topLevelKeywords.filter (fun k => isPrefixStr "addr" k) = ["address"] ∧
      findPrefix "addr" topLevelKeywords = some "address") ∧
    ((topLevelKeywords.filter (fun k => isPrefixStr "tcp" k)).length = 2 ∧
      findPrefix "tcp" topLevelKeywords = none) := by
  refine ⟨⟨by decide, ?_⟩, ⟨by decide, by rfl, ?_⟩, ⟨by rfl, ?_⟩⟩
  · exact (findPrefix_resolution_rules "address" topLevelKeywords).1 (by decide)
  · exact (findPrefix_resolution_rules "addr" topLevelKeywords).2.1 (by decide)
      (by decide) "address" (by rfl)
  · exact (findPrefix_resolution_rules "tcp" topLevelKeywords).2.2 (by decide)
      (Or.inr (by decide))

/-- C4: the -4 and -6 flags resolve the family selector: neither flag gives
All, -4 alone gives V4, -6 alone gives V6, and when both are given one
consistently applied rule decides: -6 wins, whatever -4 is. -/
theorem family_flag_resolution :
    resolveFamily false false = Family.all ∧
    resolveFamily true false = Family.v4 ∧
    resolveFamily false true = Family.v6 ∧
    ∀ inet4 : Bool, resolveFamily inet4 true = Family.v6 := by
  refine ⟨rfl, rfl, rfl, ?_⟩
  intro i4
  cases i4 <;> rfl

/-- C5: with no tokens left after flag resolution, run fails with the
out-of-bounds diagnostic whose expected set is the full top-level keyword
set. -/
theorem empty_args_full_expectation (inet4 inet6 : Bool)
    (prod : Subcmd → Family → ProdOutcome) :
    runModel inet4 inet6 [] prod = .fatalDiag ⟨[], 0, topLevelKeywords⟩ ∧
    (FatalDiag.mk [] 0 topLevelKeywords).expected =
      ["address", "route", "link", "monitor", "neigh", "tunnel", "tcp_metrics",
       "tcpmetrics", "xfrm"] := by
  constructor
  · rfl
  · rfl

/-- C8: re-serializing a parsed command into its fully spelled token form and
parsing again yields the identical command. -/
theorem command_roundtrip (cmd : Command) :
    parseCommand cmd.family (serializeCommand cmd) = some cmd := by
  cases cmd with
  | address fam act leaves => cases act <;> rfl
  | link fam leaves => rfl
  | route fam leaves => rfl
  | neigh fam leaves => rfl
  | monitor fam leaves => rfl
  | tunnel fam leaves => rfl
  | tcpMetrics fam leaves => rfl
  | xfrm fam leaves => rfl

end Ip

namespace Tftp

/-- C10: validateMode maps "ascii" to ModeNetASCII and "binary" to ModeOctet,
returns ErrInvalidTransferMode on every other string, and errs exactly when
the input is neither "ascii" nor "binary". -/
theorem validateMode_classification :
    validateMode "ascii" = .ok .netASCII ∧
    validateMode "binary" = .ok .octet ∧
    (∀ s : String, s ≠ "ascii" → s ≠ "binary" →
      validateMode s = .error errInvalidTransferMode) ∧
    (∀ s : String, (∃ e, validateMode s = .error e) ↔ ¬(s = "ascii" ∨ s = "binary")) := by
  refine ⟨rfl, rfl, ?_, ?_⟩
  · intro s h1 h2
    simp [validateMode, h1, h2]
  · intro s
    by_cases h1 : s = "ascii"
    · simp [validateMode, h1]
    · by_cases h2 : s = "binary" <;> simp [validateMode, h1, h2]

/-- C10 witness: "octet" is neither "ascii" nor "binary" and is rejected with
ErrInvalidTransferMode. -/
theorem validateMode_classification_witness :
    ("octet" : String) ≠ "ascii" ∧ ("octet" : String) ≠ "binary" ∧
    validateMode "octet" = .error errInvalidTransferMode := by
  refine ⟨by decide, by decide, ?_⟩
  exact validateMode_classification.2.2.1 "octet" (by decide) (by decide)

end Tftp

namespace Ip

/-- C2: any first token that is an unambiguous prefix of exactly one top-level
keyword makes run dispatch to that keyword's subcommand routine, whatever the
length of the prefix; the keywords tcp_metrics and tcpmetrics both dispatch to
the tcp-metrics routine. -/
theorem run_dispatch_unambiguous :
    (∀ tok k : String, tok ≠ "" →
      topLevelKeywords.filter (fun c => isPrefixStr tok c) = [k] →
      ∃ s : Subcmd, subcmdOfKeyword k = some s ∧ dispatchSubcmd tok = some s ∧
        ∀ (inet4 inet6 : Bool) (rest : List String)
          (prod : Subcmd → Family → ProdOutcome),
          runModel inet4 inet6 (tok :: rest) prod =
            handleOutcome (tok :: rest) k (prod s (resolveFamily inet4 inet6))) ∧
    dispatchSubcmd "tcp_metrics" = some Subcmd.tcpMetrics ∧
    dispatchSubcmd "tcpmetrics" = some Subcmd.tcpMetrics := by
  refine ⟨?_, by rfl, by rfl⟩
  intro tok k hne hf
  have hk : k ∈ topLevelKeywords := by
    have hmemf : k ∈ topLevelKeywords.filter (fun c => isPrefixStr tok c) := by
      rw [hf]
      exact List.mem_singleton_self k
    exact List.mem_of_mem_filter hmemf
  have hfp : findPrefix tok topLevelKeywords = some k := by
    by_cases hmem : tok ∈ topLevelKeywords
    · have htokf : tok ∈ topLevelKeywords.filter (fun c => isPrefixStr tok c) :=
        List.mem_filter.mpr ⟨hmem, decide_eq_true List.prefix_rfl⟩
      rw [hf] at htokf
      have heq : tok = k := by simpa using htokf
      subst heq
      simp [findPrefix, hmem]
    · simp [findPrefix, hmem, hne, hf, uniqueCandidate_singleton]
  obtain ⟨s, hs⟩ : ∃ s, subcmdOfKeyword k = some s := by
    simp only [topLevelKeywords, List.mem_cons, List.not_mem_nil, or_false] at hk
    rcases hk with rfl | rfl | rfl | rfl | rfl | rfl | rfl | rfl | rfl
    all_goals exact ⟨_, rfl⟩
  refine ⟨s, hs, ?_, ?_⟩
  · simp [dispatchSubcmd, hfp, hs]
  · intro i4 i6 rest prod
    simp [runModel, hfp, hs]

/-- C2 witness: the abbreviation "addr" dispatches to the address routine. -/
theorem run_dispatch_unambiguous_witness :
    dispatchSubcmd "addr" = some Subcmd.address ∧
    runModel false false ["addr"] (fun _ _ => ProdOutcome.ret none) = RunResult.ok := by
  obtain ⟨s, hs, hd, hrun⟩ :=
    run_dispatch_unambiguous.1 "addr" "address" (by decide) (by rfl)
  have hs' : s = Subcmd.address := by
    have h := hs
    simp only [subcmdOfKeyword] at h
    exact (Option.some.inj h).symm
  subst hs'
  refine ⟨hd, ?_⟩
  rw [hrun false false [] (fun _ _ => ProdOutcome.ret none)]
  rfl

/-- C3: panics from out-of-bounds token access are caught at the single recover
boundary of run and converted into one diagnostic carrying the args, the
cursor at failure (hence the consumed tokens and the unconsumed tokens) and
the expectation set in effect at failure; every other error panic surfaces
with its own message unmodified behind the uniform "ip: " framing; every panic
value is caught, so no raw fault escapes to the caller; and a panic inside a
production propagates exactly to this boundary. -/
theorem run_recover_boundary :
    (∀ (args : List String) (cursor : Nat) (wiw : List String) (msg : String),
      (strContains msg "index out of range" = true ∨
        strContains msg "slice bounds out of range" = true) →
      recoverBoundary args cursor wiw (.errVal msg) = .fatalDiag ⟨args, cursor, wiw⟩) ∧
    (∀ i n : Nat, strContains (oobMsg i n) "index out of range" = true ∧
      strContains (sliceOobMsg i n) "slice bounds out of range" = true) ∧
    (∀ (args : List String) (cursor : Nat) (wiw : List String),
      (FatalDiag.mk args cursor wiw).consumed = args.take cursor ∧
      (FatalDiag.mk args cursor wiw).unconsumed = args.drop cursor ∧
      (FatalDiag.mk args cursor wiw).consumed ++
        (FatalDiag.mk args cursor wiw).unconsumed = args ∧
      (FatalDiag.mk args cursor wiw).expected = wiw) ∧
    (∀ (args : List String) (cursor : Nat) (wiw : List String) (msg : String),
      strContains msg "index out of range" = false →
      strContains msg "slice bounds out of range" = false →
      recoverBoundary args cursor wiw (.errVal msg) = .fatalMsg ("ip: " ++ msg)) ∧
    (∀ (args : List String) (cursor : Nat) (wiw : List String) (v : PanicVal),
      (recoverBoundary args cursor wiw v).isFatal = true) ∧
    (∀ (inet4 inet6 : Bool) (tok c : String) (rest : List String)
      (prod : Subcmd → Family → ProdOutcome) (s : Subcmd) (v : PanicVal)
      (cur : Nat) (wiw : List String),
      findPrefix tok topLevelKeywords = some c →
      subcmdOfKeyword c = some s →
      prod s (resolveFamily inet4 inet6) = .panicked v cur wiw →
      runModel inet4 inet6 (tok :: rest) prod =
        recoverBoundary (tok :: rest) cur wiw v) := by
  refine ⟨?_, ?_, ?_, ?_, ?_, ?_⟩
  · intro args cursor wiw msg hd
    rcases hd with h1 | h2
    · simp [recoverBoundary, h1]
    · by_cases h1 : strContains msg "index out of range" = true
      · simp [recoverBoundary, h1]
      · simp [recoverBoundary, h1, h2]
  · intro i n
    exact ⟨strContains_oobMsg i n, strContains_sliceOobMsg i n⟩
  · intro args cursor wiw
    exact ⟨rfl, rfl, List.take_append_drop _ _, rfl⟩
  · intro args cursor wiw msg h1 h2
    simp [recoverBoundary, h1, h2]
  · intro args cursor wiw v
    cases v with
    | errVal msg =>
      by_cases h1 : strContains msg "index out of range" = true
      · simp [recoverBoundary, h1, RunResult.isFatal]
      · by_cases h2 : strContains msg "slice bounds out of range" = true
        · simp [recoverBoundary, h1, h2, RunResult.isFatal]
        · simp [recoverBoundary, h1, h2, RunResult.isFatal]
    | nonError d => simp [recoverBoundary, RunResult.isFatal]
  · intro i4 i6 tok c rest prod s v cur wiw h1 h2 h3
    simp [runModel, h1, h2, h3, handleOutcome]

/-- C3 witness: a concrete out-of-bounds panic becomes the structured
diagnostic, and a concrete other error surfaces with its message intact. -/
theorem run_recover_boundary_witness :
    recoverBoundary ["link", "show"] 1 ["show"] (.errVal (oobMsg 2 2)) =
      .fatalDiag ⟨["link", "show"], 1, ["show"]⟩ ∧
    recoverBoundary ["x"] 0 topLevelKeywords (.errVal "boom") =
      .fatalMsg ("ip: " ++ "boom") := by
  constructor
  · exact run_recover_boundary.1 ["link", "show"] 1 ["show"] (oobMsg 2 2)
      (Or.inl (by rfl))
  · exact run_recover_boundary.2.2.2.1 ["x"] 0 topLevelKeywords "boom"
      (by rfl) (by rfl)

/-- C6: whenever parsing cannot proceed on the current token, the usage
diagnostic carries exactly the consumed tokens (the input prefix before the
cursor), the remaining tokens (the suffix from the cursor), the offending
token at the cursor, and the expectation set in effect; run's no-match path
produces exactly this diagnostic. -/
theorem usage_diagnostic_contents :
    (∀ (args : List String) (cursor : Nat) (wiw : List String)
      (h : cursor < args.length),
      (usageDiag args cursor wiw).fine = args.take cursor ∧
      (usageDiag args cursor wiw).left = args.drop cursor ∧
      (usageDiag args cursor wiw).fine ++ (usageDiag args cursor wiw).left = args ∧
      ((usageDiag args cursor wiw).fine).length = cursor ∧
      (usageDiag args cursor wiw).notUnderstood = args.get ⟨cursor, h⟩ ∧
      ((usageDiag args cursor wiw).left).head? =
        some ((usageDiag args cursor wiw).notUnderstood) ∧
      (usageDiag args cursor wiw).options = wiw) ∧
    (∀ (inet4 inet6 : Bool) (prod : Subcmd → Family → ProdOutcome) (t : String)
      (rest : List String),
      findPrefix t topLevelKeywords = none →
      runModel inet4 inet6 (t :: rest) prod =
        .err ("" ++ ": " ++ usageText (usageDiag (t :: rest) 0 topLevelKeywords))) := by
  constructor
  · intro args cursor wiw h
    refine ⟨rfl, rfl, List.take_append_drop _ _, ?_, ?_, ?_, rfl⟩
    · simp [usageDiag, List.length_take, Nat.min_eq_left (Nat.le_of_lt h)]
    · simp [usageDiag, List.getD, List.getElem?_eq_getElem h]
    · simp [usageDiag, List.head?_drop, List.getD, List.getElem?_eq_getElem h]
  · intro i4 i6 prod t rest hfp
    simp [runModel, hfp, handleOutcome]

/-- C6 witness: for the input link xyz stopped at cursor 1, the diagnostic
holds consumed = [link], remaining = [xyz], offending = xyz and the installed
expectation set; and a no-match first token goes through the usage path. -/
theorem usage_diagnostic_contents_witness :
    (usageDiag ["link", "xyz"] 1 ["add", "delete", "show"]).fine = ["link"] ∧
    (usageDiag ["link", "xyz"] 1 ["add", "delete", "show"]).left = ["xyz"] ∧
    (usageDiag ["link", "xyz"] 1 ["add", "delete", "show"]).notUnderstood = "xyz" ∧
    (usageDiag ["link", "xyz"] 1 ["add", "delete", "show"]).options =
      ["add", "delete", "show"] ∧
    runModel false false ["bogus"] (fun _ _ => ProdOutcome.ret none) =
      .err ("" ++ ": " ++ usageText (usageDiag ["bogus"] 0 topLevelKeywords)) := by
  have h := usage_diagnostic_contents.1 ["link", "xyz"] 1 ["add", "delete", "show"]
    (by decide)
  refine ⟨?_, ?_, ?_, h.2.2.2.2.2.2, ?_⟩
  · rw [h.1]
    rfl
  · rw [h.2.1]
    rfl
  · rw [h.2.2.2.2.1]
    rfl
  · exact usage_diagnostic_contents.2 false false _ "bogus" [] (by rfl)

/-- C7: every error a subcommand routine returns (including errors from the
execution collaborator) is passed through by run unmodified except that the
owning subcommand keyword is prefixed, as fmt.Errorf formats it. -/
theorem subcommand_error_prefixed (inet4 inet6 : Bool) (tok c : String)
    (rest : List String) (prod : Subcmd → Family → ProdOutcome) (s : Subcmd)
    (e : String) (h1 : findPrefix tok topLevelKeywords = some c)
    (h2 : subcmdOfKeyword c = some s)
    (h3 : prod s (resolveFamily inet4 inet6) = .ret (some e)) :
    runModel inet4 inet6 (tok :: rest) prod = .err (c ++ ": " ++ e) := by
  simp [runModel, h1, h2, h3, handleOutcome]

/-- C7 witness: a route subcommand error surfaces with the route keyword
prefixed and the message otherwise untouched. -/
theorem subcommand_error_prefixed_witness :
    runModel false false ["route"] (fun _ _ => ProdOutcome.ret (some "no such table")) =
      .err ("route" ++ ": " ++ "no such table") :=
  subcommand_error_prefixed false false "route" "route" []
    (fun _ _ => ProdOutcome.ret (some "no such table")) Subcmd.route "no such table"
    (by rfl) (by rfl) (by rfl)

end Ip

namespace Tftp

/-- C9: in the get path, when fetching the remote file succeeded but opening
the local destination file fails, executeGet returns nil (reporting success)
instead of the open error, and no further files of the request are
transferred. -/
theorem executeGet_open_error_skipped (env : TftpEnv) (host port f : String)
    (files rest : List String) (resp : RespT) (e : String)
    (hrem : (getCmdOf files).remotefiles = f :: rest)
    (hget : env.clientGet (constructURL host port "" f) = .ok resp)
    (hopen : env.openFile f = .error e) :
    executeGet env host port files = (.ok (), []) := by
  simp only [executeGet]
  rw [hrem]
  simp [executeGetLoop, hget, hopen]

/-- C9 witness: with every local open failing, a three-file get reports
success with nothing transferred. -/
theorem executeGet_open_error_skipped_witness :
    executeGet
      ⟨fun _ => .ok ⟨.ok 0, .ok 0⟩, fun _ => .error "permission denied"⟩
      "h" "69" ["a", "b", "c"] = (.ok (), []) :=
  executeGet_open_error_skipped
    ⟨fun _ => .ok ⟨.ok 0, .ok 0⟩, fun _ => .error "permission denied"⟩
    "h" "69" "a" ["a", "b", "c"] ["b", "c"] ⟨.ok 0, .ok 0⟩ "permission denied"
    (by rfl) (by rfl) (by rfl)

end Tftp
